import Mathlib

/-!
Verification of the NeerVaani farmer-assistance web application.

The development shallowly embeds the parts of the TypeScript source that the
verified properties concern:

* `src/ai/schemas/post-harvest-schemas.ts` — the zod input/output schemas of
  the post-harvest advisory flow, modelled as parsers over a JSON value type.
* the conversational agent component (`ConversationalAgent`) — its submit
  handler, message list, and the exclusive audio-playback discipline.
* `src/components/neerhub/market-analysis-card.tsx` — the submit handler and
  the trend-icon mapping.
* `src/components/dashboard/current-crop-agent.tsx` — the query / market /
  post-harvest handlers and their shared result slots.

Remote calls are modelled by passing the outcome of the call (success value or
failure) as an explicit argument to the handler; the effects a handler performs
(remote call, toast) are returned explicitly.
-/

/-- A JSON-like value, the domain of the zod schema validators. -/
inductive JsonValue where
  | str : String → JsonValue
  | num : Int → JsonValue
  | boolean : Bool → JsonValue
  | null : JsonValue
  | obj : List (String × JsonValue) → JsonValue
  | arr : List JsonValue → JsonValue
deriving Repr

/-- Field lookup in a JSON object; `none` when the value is not an object or
the key is absent (JavaScript `undefined`). -/
def JsonValue.getField : JsonValue → String → Option JsonValue
  | JsonValue.obj fields, k =>
      match fields.find? (fun p => p.1 == k) with
      | some p => some p.2
      | none => none
  | _, _ => none

/-- `z.string()` applied to an object field: succeeds exactly when the field is
present and is a string. -/
def zObjString (j : JsonValue) (k : String) : Option String :=
  match j.getField k with
  | some (JsonValue.str s) => some s
  | _ => none

/-- `z.string().optional()` applied to an object field: an absent field parses
to `none`, a string field to `some`, anything else is a validation failure. -/
def zObjStringOpt (j : JsonValue) (k : String) : Option (Option String) :=
  match j.getField k with
  | none => some none
  | some (JsonValue.str s) => some (some s)
  | some _ => none

/-- The parsed form of `CurrentCropContextSchema`
(src/ai/schemas/post-harvest-schemas.ts lines 4–11): id, cropName, fieldSize,
location and sowingDate are required strings, additionalInfo is optional. -/
structure CurrentCropContext where
  id : String
  cropName : String
  fieldSize : String
  location : String
  sowingDate : String
  additionalInfo : Option String
deriving DecidableEq, Repr

/-- `CurrentCropContextSchema.parse`: validates a JSON value against the crop
context schema. -/
def CurrentCropContextSchema.parse (j : JsonValue) : Option CurrentCropContext :=
  match j with
  | JsonValue.obj _ =>
      match zObjString j "id", zObjString j "cropName", zObjString j "fieldSize",
            zObjString j "location", zObjString j "sowingDate",
            zObjStringOpt j "additionalInfo" with
      | some i, some cn, some fs, some loc, some sd, some ai =>
          some ⟨i, cn, fs, loc, sd, ai⟩
      | _, _, _, _, _, _ => none
  | _ => none

/-- The parsed form of `PostHarvestInputSchema`
(src/ai/schemas/post-harvest-schemas.ts lines 13–17). -/
structure PostHarvestInput where
  cropContext : CurrentCropContext
  estimatedYield : Option String
  language : Option String
deriving DecidableEq, Repr

/-- `PostHarvestInputSchema.parse`. -/
def PostHarvestInputSchema.parse (j : JsonValue) : Option PostHarvestInput :=
  match j with
  | JsonValue.obj _ =>
      match j.getField "cropContext" with
      | some ccj =>
          match CurrentCropContextSchema.parse ccj, zObjStringOpt j "estimatedYield",
                zObjStringOpt j "language" with
          | some cc, some ey, some lang => some ⟨cc, ey, lang⟩
          | _, _, _ => none
      | none => none
  | _ => none

/-- The parsed form of `PostHarvestOutputSchema`
(src/ai/schemas/post-harvest-schemas.ts lines 20–29): eight advice fields, each
`z.string()`. -/
structure PostHarvestOutput where
  storageRecommendations : String
  transportationOptions : String
  marketLinkages : String
  valueAdditionOpportunities : String
  pricingStrategy : String
  qualityControlMeasures : String
  postHarvestHandling : String
  wasteManagement : String
deriving DecidableEq, Repr

/-- `PostHarvestOutputSchema.parse`: accepts exactly the JSON objects carrying
all eight advice fields as strings (extra keys are stripped, as by a
non-strict zod object). -/
def PostHarvestOutputSchema.parse (j : JsonValue) : Option PostHarvestOutput :=
  match j with
  | JsonValue.obj _ =>
      match zObjString j "storageRecommendations", zObjString j "transportationOptions",
            zObjString j "marketLinkages", zObjString j "valueAdditionOpportunities",
            zObjString j "pricingStrategy", zObjString j "qualityControlMeasures",
            zObjString j "postHarvestHandling", zObjString j "wasteManagement" with
      | some a, some b, some c, some d, some e, some f, some g, some h =>
          some ⟨a, b, c, d, e, f, g, h⟩
      | _, _, _, _, _, _, _, _ => none
  | _ => none

/-- Modelled from the spec: the post-harvest flow itself
(`getPostHarvestAdvice` in `src/ai/flows/post-harvest-flow.ts`) is not among
the available sources; per spec §4.1 it validates its input against
`PostHarvestInputSchema` and only on success sends the remote request. -/
inductive PostHarvestInvocation where
  | validationError
  | remoteCalled (input : PostHarvestInput)
deriving DecidableEq, Repr

/-- Modelled from the spec: input validation happens before any remote call;
an invalid input fails with a `ValidationError` and no remote request is
made. -/
def getPostHarvestAdvice (j : JsonValue) : PostHarvestInvocation :=
  match PostHarvestInputSchema.parse j with
  | none => PostHarvestInvocation.validationError
  | some i => PostHarvestInvocation.remoteCalled i

theorem postHarvestOutput_parse_fields (j : JsonValue) (out : PostHarvestOutput)
    (h : PostHarvestOutputSchema.parse j = some out) :
    zObjString j "storageRecommendations" = some out.storageRecommendations ∧
    zObjString j "transportationOptions" = some out.transportationOptions ∧
    zObjString j "marketLinkages" = some out.marketLinkages ∧
    zObjString j "valueAdditionOpportunities" = some out.valueAdditionOpportunities ∧
    zObjString j "pricingStrategy" = some out.pricingStrategy ∧
    zObjString j "qualityControlMeasures" = some out.qualityControlMeasures ∧
    zObjString j "postHarvestHandling" = some out.postHarvestHandling ∧
    zObjString j "wasteManagement" = some out.wasteManagement := by
  unfold PostHarvestOutputSchema.parse at h
  split at h
  · split at h
    · injection h with h
      subst h
      simp_all
    · exact absurd h (by simp)
  · exact absurd h (by simp)

theorem currentCropContext_parse_fields (j : JsonValue) (cc : CurrentCropContext)
    (h : CurrentCropContextSchema.parse j = some cc) :
    zObjString j "id" = some cc.id ∧
    zObjString j "cropName" = some cc.cropName ∧
    zObjString j "fieldSize" = some cc.fieldSize ∧
    zObjString j "location" = some cc.location ∧
    zObjString j "sowingDate" = some cc.sowingDate := by
  unfold CurrentCropContextSchema.parse at h
  split at h
  · split at h
    · injection h with h
      subst h
      simp_all
    · exact absurd h (by simp)
  · exact absurd h (by simp)

theorem zObjString_none_of_getField_none (j : JsonValue) (k : String)
    (h : j.getField k = none) : zObjString j k = none := by
  unfold zObjString
  rw [h]

theorem postHarvestInput_parse_cropContext (j : JsonValue) (i : PostHarvestInput)
    (h : PostHarvestInputSchema.parse j = some i) :
    ∃ ccj, j.getField "cropContext" = some ccj ∧
      CurrentCropContextSchema.parse ccj = some i.cropContext := by
  unfold PostHarvestInputSchema.parse at h
  split at h
  · split at h
    · split at h
      · injection h with h
        subst h
        simp_all
      · exact absurd h (by simp)
    · exact absurd h (by simp)
  · exact absurd h (by simp)

/-- A reply carrying all eight advice fields as strings, one of them the empty
string: `z.string()` places no lower bound on length, so the output schema
accepts it. -/
def emptyFieldReply : JsonValue :=
  JsonValue.obj
    [("storageRecommendations", JsonValue.str ""),
     ("transportationOptions", JsonValue.str "Use refrigerated trucks."),
     ("marketLinkages", JsonValue.str "Sell at the Pune APMC market."),
     ("valueAdditionOpportunities", JsonValue.str "Make tomato puree."),
     ("pricingStrategy", JsonValue.str "Negotiate forward contracts."),
     ("qualityControlMeasures", JsonValue.str "Grade by size and colour."),
     ("postHarvestHandling", JsonValue.str "Clean and dry before packing."),
     ("wasteManagement", JsonValue.str "Compost the culls.")]

/-- C1, counterexample: the claim requires every accepted reply to have each
advice field non-empty, but `PostHarvestOutputSchema` validates each field
with a bare `z.string()`, so a reply whose `storageRecommendations` is the
empty string is accepted, empty field and all. -/
theorem C1_counterexample :
    PostHarvestOutputSchema.parse emptyFieldReply =
      some { storageRecommendations := "",
             transportationOptions := "Use refrigerated trucks.",
             marketLinkages := "Sell at the Pune APMC market.",
             valueAdditionOpportunities := "Make tomato puree.",
             pricingStrategy := "Negotiate forward contracts.",
             qualityControlMeasures := "Grade by size and colour.",
             postHarvestHandling := "Clean and dry before packing.",
             wasteManagement := "Compost the culls." } := rfl

/-- C1 (amended): a reply is either rejected outright by the post-harvest
output schema or parsed into a result carrying exactly the eight defined
advice fields, each the (possibly empty) string value of the corresponding
reply field; a reply missing a field or holding a wrong-typed field can never
be accepted, and no partial acceptance exists. -/
theorem C1_output_schema_all_or_nothing (j : JsonValue) :
    PostHarvestOutputSchema.parse j = none ∨
    ∃ out, PostHarvestOutputSchema.parse j = some out ∧
      zObjString j "storageRecommendations" = some out.storageRecommendations ∧
      zObjString j "transportationOptions" = some out.transportationOptions ∧
      zObjString j "marketLinkages" = some out.marketLinkages ∧
      zObjString j "valueAdditionOpportunities" = some out.valueAdditionOpportunities ∧
      zObjString j "pricingStrategy" = some out.pricingStrategy ∧
      zObjString j "qualityControlMeasures" = some out.qualityControlMeasures ∧
      zObjString j "postHarvestHandling" = some out.postHarvestHandling ∧
      zObjString j "wasteManagement" = some out.wasteManagement := by
  cases h : PostHarvestOutputSchema.parse j with
  | none => exact Or.inl rfl
  | some out => exact Or.inr ⟨out, rfl, postHarvestOutput_parse_fields j out h⟩

/-- C2: a CropContext object missing any of the five required fields (id,
cropName, fieldSize, location, sowingDate) fails input validation, so the
post-harvest flow ends in a `ValidationError` and no remote call is made. -/
theorem C2_missing_field_validation_error (j cc : JsonValue) (k : String)
    (hk : k ∈ ["id", "cropName", "fieldSize", "location", "sowingDate"])
    (hcc : j.getField "cropContext" = some cc)
    (hmiss : cc.getField k = none) :
    getPostHarvestAdvice j = PostHarvestInvocation.validationError := by
  unfold getPostHarvestAdvice
  cases hp : PostHarvestInputSchema.parse j with
  | none => rfl
  | some i =>
      exfalso
      obtain ⟨ccj, hccj, hpcc⟩ := postHarvestInput_parse_cropContext j i hp
      rw [hcc] at hccj
      injection hccj with hccj
      subst hccj
      have hfields := currentCropContext_parse_fields cc i.cropContext hpcc
      have hz := zObjString_none_of_getField_none cc k hmiss
      simp only [List.mem_cons, List.mem_singleton] at hk
      rcases hk with rfl | rfl | rfl | rfl | rfl | hk
      · rw [hfields.1] at hz; exact Option.noConfusion hz
      · rw [hfields.2.1] at hz; exact Option.noConfusion hz
      · rw [hfields.2.2.1] at hz; exact Option.noConfusion hz
      · rw [hfields.2.2.2.1] at hz; exact Option.noConfusion hz
      · rw [hfields.2.2.2.2] at hz; exact Option.noConfusion hz
      · exact List.not_mem_nil k hk

/-- A post-harvest input whose crop context lacks the required `id` field. -/
def cropMissingId : JsonValue :=
  JsonValue.obj
    [("cropName", JsonValue.str "Tomato"),
     ("fieldSize", JsonValue.str "2 acres"),
     ("location", JsonValue.str "Pune"),
     ("sowingDate", JsonValue.str "2024-01-10T00:00:00.000Z")]

/-- The flow input wrapping `cropMissingId`. -/
def inputMissingId : JsonValue :=
  JsonValue.obj
    [("cropContext", cropMissingId),
     ("estimatedYield", JsonValue.str "10 tonnes")]

/-- Witness for C2 at a concrete input missing the crop id. -/
theorem C2_witness :
    getPostHarvestAdvice inputMissingId = PostHarvestInvocation.validationError :=
  C2_missing_field_validation_error inputMissingId cropMissingId "id"
    (by simp) rfl rfl

/-- Message role in the conversational flow (`'user' | 'model'`). -/
inductive Role where
  | user
  | model
deriving DecidableEq, Repr

theorem Role.user_or_model (r : Role) : r = Role.user ∨ r = Role.model := by
  cases r
  · exact Or.inl rfl
  · exact Or.inr rfl

/-- A conversational message (`Message` of the conversational flow). -/
structure Message where
  role : Role
  content : String
deriving DecidableEq, Repr

/-- The argument `handleSubmit` passes to `startChat`: the current query, the
resolved language name, and the prior history. -/
structure ChatRequest where
  query : String
  language : String
  history : List Message
deriving DecidableEq, Repr

/-- The submission-relevant local state of `ConversationalAgent`: the message
list, the text field, and the `loading` flag. -/
structure ChatState where
  messages : List Message
  input : String
  loading : Bool
deriving DecidableEq, Repr

/-- A structural model of JavaScript `String.prototype.trim`: strip leading
and trailing whitespace characters. -/
def jsTrim (s : String) : String :=
  String.mk (((s.data.dropWhile Char.isWhitespace).reverse.dropWhile Char.isWhitespace).reverse)

/-- The canned reply appended when the flow call fails (line 123). -/
def errorReplyText : String := "Sorry, I encountered an error. Please try again."

/-- `handleSubmit` of `ConversationalAgent` (lines 89–128), taken as one
atomic step. The outcome of the awaited `startChat` call is an explicit
argument; the language name (resolved from the locale via the i18n table,
which is outside the embedded sources) is a parameter. Returns the new state
and the request transmitted to `startChat` (`none` when no call was made). -/
def handleSubmit (s : ChatState) (language : String)
    (flowOutcome : Except Unit String) : ChatState × Option ChatRequest :=
  if jsTrim s.input = "" ∨ s.loading = true then (s, none)
  else
    let userMessage : Message := ⟨Role.user, s.input⟩
    let history := s.messages ++ [userMessage]
    let req : ChatRequest := ⟨s.input, language, history.dropLast⟩
    match flowOutcome with
    | Except.ok response =>
        ({ messages := history ++ [⟨Role.model, response⟩], input := "", loading := false },
         some req)
    | Except.error _ =>
        ({ messages := history ++ [⟨Role.model, errorReplyText⟩], input := "", loading := false },
         some req)

/-- Modelled from the spec: `startChat`
(src/ai/flows/conversational-agent-flow.ts) is not among the available
sources; per spec §4.2 the remote call receives history in the exact order
messages were produced, oldest first, current query appended last. -/
def startChatTransmitted (req : ChatRequest) : List Message :=
  req.history ++ [⟨Role.user, req.query⟩]

/-- C3: when a submission proceeds (non-blank input, not loading), the request
history is exactly the N prior messages in their original order, and the
sequence transmitted to the remote call is those N messages followed by the
current user query, appended last. -/
theorem C3_history_order (s : ChatState) (language : String)
    (flowOutcome : Except Unit String)
    (hin : ¬ jsTrim s.input = "") (hload : s.loading = false) :
    ∃ req, (handleSubmit s language flowOutcome).2 = some req ∧
      req.history = s.messages ∧
      req.history.length = s.messages.length ∧
      startChatTransmitted req = s.messages ++ [⟨Role.user, s.input⟩] := by
  unfold handleSubmit
  rw [if_neg (by simp [hin, hload])]
  cases flowOutcome with
  | ok response =>
      refine ⟨_, rfl, ?_, ?_, ?_⟩ <;> simp [startChatTransmitted, List.dropLast_concat]
  | error e =>
      refine ⟨_, rfl, ?_, ?_, ?_⟩ <;> simp [startChatTransmitted, List.dropLast_concat]

/-- Witness for C3 at a concrete two-message conversation. -/
theorem C3_history_order_witness :
    ∃ req,
      (handleSubmit ⟨[⟨Role.user, "hi"⟩, ⟨Role.model, "hello"⟩], "tomato price", false⟩
        "English" (Except.ok "reply")).2 = some req ∧
      req.history = [⟨Role.user, "hi"⟩, ⟨Role.model, "hello"⟩] ∧
      req.history.length = ([⟨Role.user, "hi"⟩, ⟨Role.model, "hello"⟩] : List Message).length ∧
      startChatTransmitted req =
        [⟨Role.user, "hi"⟩, ⟨Role.model, "hello"⟩] ++ [⟨Role.user, "tomato price"⟩] :=
  C3_history_order ⟨[⟨Role.user, "hi"⟩, ⟨Role.model, "hello"⟩], "tomato price", false⟩
    "English" (Except.ok "reply") (by decide) rfl

/-- C8: every run of the submit handler only appends to the message list
(the prior sequence is a prefix of the new one), and every message carries
role user or model. -/
theorem C8_messages_append_only (s : ChatState) (language : String)
    (flowOutcome : Except Unit String) :
    ∃ t, (handleSubmit s language flowOutcome).1.messages = s.messages ++ t ∧
      ∀ m ∈ t, m.role = Role.user ∨ m.role = Role.model := by
  unfold handleSubmit
  split
  · exact ⟨[], by simp, by intro m _; exact Role.user_or_model m.role⟩
  · cases flowOutcome with
    | ok response =>
        exact ⟨[⟨Role.user, s.input⟩, ⟨Role.model, response⟩], by simp,
          by intro m _; exact Role.user_or_model m.role⟩
    | error e =>
        exact ⟨[⟨Role.user, s.input⟩, ⟨Role.model, errorReplyText⟩], by simp,
          by intro m _; exact Role.user_or_model m.role⟩

/-- A `textToSpeech` call issued by a `speak` invocation and not yet
resolved, remembering whether that invocation asked for auto-play. -/
structure PendingTts where
  callId : Nat
  autoPlay : Bool
deriving DecidableEq, Repr

/-- The audio-playback state of `ConversationalAgent`, with the suspension of
`speak` at its awaited `textToSpeech` call made explicit: the tracked
`currentAudio` element, the ids of the audio elements currently playing, a
counter allocating fresh element ids, the TTS calls issued but not yet
resolved, a counter allocating fresh call ids, and the `isPlaying` flag. -/
structure AudioWorld where
  currentAudio : Option Nat
  playing : List Nat
  nextId : Nat
  pending : List PendingTts
  nextCall : Nat
  isPlaying : Bool
deriving DecidableEq, Repr

/-- `stopCurrentAudio` (lines 47–54): pause the tracked element, release the
global current-audio resource, clear the playing flag. -/
def stopCurrentAudio (s : AudioWorld) : AudioWorld :=
  match s.currentAudio with
  | some a =>
      { s with playing := s.playing.filter (fun x => x != a),
               currentAudio := none, isPlaying := false }
  | none => s

/-- The synchronous prefix of `speak` (lines 56–62), up to the
`await textToSpeech`: stop any currently playing clip, bail out on blank
text, otherwise issue the TTS request, which becomes pending. No audio
element exists for this invocation yet. -/
def speakStart (s : AudioWorld) (text : String) (autoPlay : Bool) : AudioWorld :=
  let s1 := stopCurrentAudio s
  if jsTrim text = "" then s1
  else
    { s1 with
        pending := s1.pending ++ [⟨s1.nextCall, autoPlay⟩]
        nextCall := s1.nextCall + 1 }

/-- The continuation of `speak` after its awaited `textToSpeech` call
resolves (lines 62–77): when the call returns audio, create a fresh element,
track it as the current audio — pausing nothing — and play it when that
invocation asked for `autoPlay`; when the call fails or carries no
`audioDataUri` (the catch branch, `ttsOk = false`), only a toast is shown. -/
def ttsResolve (s : AudioWorld) (c : Nat) (ttsOk : Bool) : AudioWorld :=
  match s.pending.find? (fun p => p.callId == c) with
  | none => s
  | some p =>
      if ttsOk then
        { currentAudio := some s.nextId,
          playing := if p.autoPlay then s.playing ++ [s.nextId] else s.playing,
          nextId := s.nextId + 1,
          pending := s.pending.filter (fun q => q.callId != c),
          nextCall := s.nextCall,
          isPlaying := if p.autoPlay then true else s.isPlaying }
      else { s with pending := s.pending.filter (fun q => q.callId != c) }

/-- The `ended` event of a playing element (lines 69–72): the element stops
playing and the handler clears `isPlaying` and `currentAudio`. -/
def audioEnded (s : AudioWorld) (a : Nat) : AudioWorld :=
  if a ∈ s.playing then
    { s with playing := s.playing.filter (fun x => x != a),
             currentAudio := none, isPlaying := false }
  else s

/-- The audio-related events the component can process; a `speak` invocation
is two events — its synchronous start and the later resolution of its TTS
call — so invocations can overlap. -/
inductive AudioEvent where
  | speakStartEv (text : String) (autoPlay : Bool)
  | ttsResolveEv (c : Nat) (ttsOk : Bool)
  | stopClicked
  | endedEv (a : Nat)

/-- One audio step of the component. -/
def audioStep (s : AudioWorld) : AudioEvent → AudioWorld
  | AudioEvent.speakStartEv t ap => speakStart s t ap
  | AudioEvent.ttsResolveEv c ok => ttsResolve s c ok
  | AudioEvent.stopClicked => stopCurrentAudio s
  | AudioEvent.endedEv a => audioEnded s a

/-- The initial audio state: no current audio, nothing playing or pending. -/
def initialAudioWorld : AudioWorld := ⟨none, [], 0, [], 0, false⟩

/-- The audio states the program can reach: any interleaving of speak starts,
TTS resolutions (the per-message speaker button is not gated), the stop
button, and ended events. -/
inductive AudioReachable : AudioWorld → Prop where
  | init : AudioReachable initialAudioWorld
  | step {s : AudioWorld} (e : AudioEvent) :
      AudioReachable s → AudioReachable (audioStep s e)

/-- Executions in which speech requests are serialized: a new `speak` begins
only while no TTS call is pending (each await resolves before the next
invocation starts). -/
inductive SerializedReachable : AudioWorld → Prop where
  | init : SerializedReachable initialAudioWorld
  | speakStep {s : AudioWorld} (t : String) (ap : Bool) (hp : s.pending = []) :
      SerializedReachable s → SerializedReachable (speakStart s t ap)
  | resolveStep {s : AudioWorld} (c : Nat) (ok : Bool) :
      SerializedReachable s → SerializedReachable (ttsResolve s c ok)
  | stopStep {s : AudioWorld} :
      SerializedReachable s → SerializedReachable (stopCurrentAudio s)
  | endedStep {s : AudioWorld} (a : Nat) :
      SerializedReachable s → SerializedReachable (audioEnded s a)

/-- The serialized audio invariant: only the tracked current element can be
playing, at most one element plays, at most one TTS call is pending, and
while one is pending nothing plays and nothing is tracked. -/
def audioInv (s : AudioWorld) : Prop :=
  (∀ a ∈ s.playing, s.currentAudio = some a) ∧
  s.playing.length ≤ 1 ∧
  s.pending.length ≤ 1 ∧
  (s.pending ≠ [] → s.playing = [] ∧ s.currentAudio = none)

theorem filter_ne_eq_nil_of_all_eq (l : List Nat) (a : Nat)
    (h : ∀ x ∈ l, x = a) : l.filter (fun x => x != a) = [] := by
  induction l with
  | nil => rfl
  | cons y ys ih =>
      have hy : y = a := h y (List.mem_cons_self y ys)
      have : ys.filter (fun x => x != a) = [] :=
        ih (fun x hx => h x (List.mem_cons_of_mem y hx))
      simp [List.filter, hy, this]

theorem stopCurrentAudio_playing_nil (s : AudioWorld)
    (h1 : ∀ a ∈ s.playing, s.currentAudio = some a) :
    (stopCurrentAudio s).playing = [] := by
  unfold stopCurrentAudio
  cases hc : s.currentAudio with
  | none =>
      cases hp : s.playing with
      | nil => simp [hp]
      | cons y ys =>
          have := h1 y (by rw [hp]; exact List.mem_cons_self y ys)
          rw [hc] at this
          exact Option.noConfusion this
  | some a =>
      simp only
      exact filter_ne_eq_nil_of_all_eq s.playing a
        (fun x hx => (Option.some.inj (hc.symm.trans (h1 x hx))).symm)

theorem stopCurrentAudio_currentAudio_none (s : AudioWorld) :
    (stopCurrentAudio s).currentAudio = none := by
  unfold stopCurrentAudio
  split <;> simp_all

theorem stopCurrentAudio_pending (s : AudioWorld) :
    (stopCurrentAudio s).pending = s.pending := by
  unfold stopCurrentAudio
  split <;> rfl

theorem stopCurrentAudio_nextCall (s : AudioWorld) :
    (stopCurrentAudio s).nextCall = s.nextCall := by
  unfold stopCurrentAudio
  split <;> rfl

theorem speakStart_playing (s : AudioWorld) (t : String) (ap : Bool) :
    (speakStart s t ap).playing = (stopCurrentAudio s).playing := by
  unfold speakStart
  by_cases ht : jsTrim t = ""
  · simp [ht]
  · simp [ht]

theorem speakStart_currentAudio_none (s : AudioWorld) (t : String) (ap : Bool) :
    (speakStart s t ap).currentAudio = none := by
  unfold speakStart
  by_cases ht : jsTrim t = ""
  · simp [ht, stopCurrentAudio_currentAudio_none]
  · simp [ht, stopCurrentAudio_currentAudio_none]

theorem speakStart_pending (s : AudioWorld) (t : String) (ap : Bool) :
    (speakStart s t ap).pending = s.pending ∨
    (speakStart s t ap).pending = s.pending ++ [⟨s.nextCall, ap⟩] := by
  unfold speakStart
  by_cases ht : jsTrim t = ""
  · left
    simp [ht, stopCurrentAudio_pending]
  · right
    simp [ht, stopCurrentAudio_pending, stopCurrentAudio_nextCall]

theorem stopCurrentAudio_inv (s : AudioWorld) (h : audioInv s) :
    audioInv (stopCurrentAudio s) := by
  have hnil := stopCurrentAudio_playing_nil s h.1
  have hnone := stopCurrentAudio_currentAudio_none s
  have hpend := stopCurrentAudio_pending s
  refine ⟨?_, ?_, ?_, ?_⟩
  · intro a ha
    rw [hnil] at ha
    exact absurd ha (List.not_mem_nil a)
  · rw [hnil]
    simp
  · rw [hpend]
    exact h.2.2.1
  · intro _
    exact ⟨hnil, hnone⟩

theorem speakStart_inv (s : AudioWorld) (h : audioInv s) (t : String)
    (ap : Bool) (hp : s.pending = []) : audioInv (speakStart s t ap) := by
  have hplay : (speakStart s t ap).playing = [] := by
    rw [speakStart_playing]
    exact stopCurrentAudio_playing_nil s h.1
  have hcur := speakStart_currentAudio_none s t ap
  refine ⟨?_, ?_, ?_, ?_⟩
  · intro a ha
    rw [hplay] at ha
    exact absurd ha (List.not_mem_nil a)
  · rw [hplay]
    simp
  · rcases speakStart_pending s t ap with hq | hq
    · rw [hq, hp]
      simp
    · rw [hq, hp]
      simp
  · intro _
    exact ⟨hplay, hcur⟩

theorem ttsResolve_inv (s : AudioWorld) (h : audioInv s) (c : Nat)
    (ok : Bool) : audioInv (ttsResolve s c ok) := by
  obtain ⟨h1, h2, h5, h6⟩ := h
  unfold ttsResolve
  cases hfind : s.pending.find? (fun p => p.callId == c) with
  | none => exact ⟨h1, h2, h5, h6⟩
  | some p =>
      have hmem : p ∈ s.pending := List.mem_of_find?_eq_some hfind
      have hne : s.pending ≠ [] := by
        intro hnil
        rw [hnil] at hmem
        exact absurd hmem (List.not_mem_nil p)
      obtain ⟨hplay, hcur⟩ := h6 hne
      have hpc : (p.callId == c) = true := by
        have hx := List.find?_some hfind
        simpa using hx
      have hsing : s.pending = [p] := by
        cases hq : s.pending with
        | nil => exact absurd hq hne
        | cons x xs =>
            rw [hq] at hmem h5
            cases xs with
            | nil =>
                rw [List.mem_singleton] at hmem
                rw [hmem]
            | cons y ys => simp at h5
      have hfil : s.pending.filter (fun q => q.callId != c) = [] := by
        have hb : (p.callId != c) = false := by
          simp [bne, hpc]
        rw [hsing]
        simp [List.filter, hb]
      cases ok with
      | true =>
          cases hap : p.autoPlay with
          | true => refine ⟨?_, ?_, ?_, ?_⟩ <;> simp [hplay, hfil, hap]
          | false => refine ⟨?_, ?_, ?_, ?_⟩ <;> simp [hplay, hfil, hap]
      | false => refine ⟨?_, ?_, ?_, ?_⟩ <;> simp [hplay, hfil]

theorem audioEnded_inv (s : AudioWorld) (h : audioInv s) (a : Nat) :
    audioInv (audioEnded s a) := by
  obtain ⟨h1, h2, h5, h6⟩ := h
  unfold audioEnded
  by_cases ha : a ∈ s.playing
  · have hall : ∀ x ∈ s.playing, x = a := fun x hx =>
      (Option.some.inj ((h1 a ha).symm.trans (h1 x hx))).symm
    have hfil := filter_ne_eq_nil_of_all_eq s.playing a hall
    rw [if_pos ha]
    refine ⟨?_, ?_, ?_, ?_⟩
    · intro x hx
      rw [hfil] at hx
      exact absurd hx (List.not_mem_nil x)
    · rw [hfil]
      simp
    · exact h5
    · intro _
      exact ⟨hfil, rfl⟩
  · rw [if_neg ha]
    exact ⟨h1, h2, h5, h6⟩

theorem serializedReachable_inv (s : AudioWorld)
    (h : SerializedReachable s) : audioInv s := by
  induction h with
  | init => refine ⟨?_, ?_, ?_, ?_⟩ <;> simp [initialAudioWorld]
  | speakStep t ap hp _ ih => exact speakStart_inv _ ih t ap hp
  | resolveStep c ok _ ih => exact ttsResolve_inv _ ih c ok
  | stopStep _ ih => exact stopCurrentAudio_inv _ ih
  | endedStep a _ ih => exact audioEnded_inv _ ih a

/-- A racy double invocation of `speak`: two speech requests start
back-to-back, so both TTS calls are pending before either resolves; then
both resolve successfully and each plays its own element. This is reachable
in the source because the per-message speaker button invokes `speak` with no
gate. -/
def raceState : AudioWorld :=
  ttsResolve
    (ttsResolve
      (speakStart (speakStart initialAudioWorld "hello" true) "again" true)
      0 true)
    1 true

/-- C4, counterexample: the claim asserts no reachable state plays two audio
streams concurrently, but after two overlapping `speak` invocations both
resolutions create and play their elements — the second invocation's
`stopCurrentAudio` ran before the first element existed, and nothing pauses
it afterwards — so elements 0 and 1 play at once. -/
theorem C4_counterexample :
    AudioReachable raceState ∧
    raceState.playing = [0, 1] ∧
    raceState.playing.length = 2 :=
  ⟨AudioReachable.step (AudioEvent.ttsResolveEv 1 true)
    (AudioReachable.step (AudioEvent.ttsResolveEv 0 true)
      (AudioReachable.step (AudioEvent.speakStartEv "again" true)
        (AudioReachable.step (AudioEvent.speakStartEv "hello" true)
          AudioReachable.init))),
   rfl, rfl⟩

/-- C4 (amended): every `speak` invocation synchronously stops the tracked
currently playing clip and leaves the current-audio resource released before
any new element can be created (its element only appears when its TTS call
later resolves); and in executions where each invocation's TTS call resolves
before the next invocation starts, at most one audio stream ever plays. With
overlapping invocations two streams can play concurrently
(`C4_counterexample`). -/
theorem C4_serialized_exclusive (s : AudioWorld) (t : String) (ap : Bool)
    (h : SerializedReachable s) :
    s.playing.length ≤ 1 ∧
    (∀ a ∈ s.playing, a ∉ (speakStart s t ap).playing) ∧
    (speakStart s t ap).currentAudio = none := by
  have hinv := serializedReachable_inv s h
  have hplay : (speakStart s t ap).playing = [] := by
    rw [speakStart_playing]
    exact stopCurrentAudio_playing_nil s hinv.1
  refine ⟨hinv.2.1, ?_, speakStart_currentAudio_none s t ap⟩
  intro a _ hmem
  rw [hplay] at hmem
  exact absurd hmem (List.not_mem_nil a)

/-- A serialized state: one speech request issued and resolved, its clip
playing. -/
def serializedState : AudioWorld :=
  ttsResolve (speakStart initialAudioWorld "hello" true) 0 true

/-- Witness for the amended C4 at a concrete serialized state whose clip
(element 0) is playing. -/
theorem C4_serialized_exclusive_witness :
    serializedState.playing.length ≤ 1 ∧
    (∀ a ∈ serializedState.playing,
      a ∉ (speakStart serializedState "again" true).playing) ∧
    (speakStart serializedState "again" true).currentAudio = none :=
  C4_serialized_exclusive serializedState "again" true
    (SerializedReachable.resolveStep 0 true
      (SerializedReachable.speakStep "hello" true rfl SerializedReachable.init))

/-- Modelled from the spec §3: the trend direction of a market analysis is one
of exactly four values; the market-analysis schema file
(src/ai/schemas/market-analysis-schemas.ts) is not among the available
sources. -/
inductive TrendDirection where
  | Upward
  | Downward
  | Stable
  | Volatile
deriving DecidableEq, Repr

/-- The string a trend direction renders as in a validated response. -/
def TrendDirection.asString : TrendDirection → String
  | TrendDirection.Upward => "Upward"
  | TrendDirection.Downward => "Downward"
  | TrendDirection.Stable => "Stable"
  | TrendDirection.Volatile => "Volatile"

/-- Modelled from the spec §3: the parts of a MarketAnalysisResult the
verified components inspect (the full schema file is not among the available
sources). -/
structure MarketAnalysisOutput where
  direction : TrendDirection
  marketSummary : String
  recommendation : String
  reasoning : String
  dataSource : String
deriving DecidableEq, Repr

/-- The icons the `TrendIcon` component can render. -/
inductive TrendIconKind where
  | arrowUp
  | arrowDown
  | minus
  | barChart
deriving DecidableEq, Repr

/-- `TrendIcon` (market-analysis-card.tsx lines 26–34 and
current-crop-agent.tsx lines 75–83, identical switch): maps a direction
string to an icon; the default branch renders nothing (`none`). -/
def TrendIcon (direction : String) : Option TrendIconKind :=
  match direction with
  | "Upward" => some TrendIconKind.arrowUp
  | "Downward" => some TrendIconKind.arrowDown
  | "Stable" => some TrendIconKind.minus
  | "Volatile" => some TrendIconKind.barChart
  | _ => none

/-- C7: for every trend direction a validated MarketAnalysisResult can carry
(one of Upward, Downward, Stable, Volatile), the trend-icon mapping yields a
defined icon; the fall-through branch that renders no icon is unreachable on
schema-valid data. -/
theorem C7_trend_icon_defined (d : TrendDirection) :
    (TrendIcon d.asString).isSome = true := by
  cases d <;> rfl

/-- An effect a submit handler performs besides updating its local state. -/
inductive Effect where
  | remoteCall
  | toastError (title description : String)
deriving DecidableEq, Repr

/-- The local state of `MarketAnalysisTool` (market-analysis-card.tsx): the
loading flag and the result slot. -/
structure MarketAnalysisCardState where
  loading : Bool
  analysis : Option MarketAnalysisOutput
deriving DecidableEq, Repr

/-- `onSubmit` of `MarketAnalysisTool` (market-analysis-card.tsx lines
61–78), taken as one atomic step: set loading, clear the result, call the
flow; on success store the result, on any failure show the generic toast and
leave no result; `finally` clears loading. The outcome of the awaited flow
call is an explicit argument; the handler is total — no error escapes it. -/
def onSubmit (flowOutcome : Except Unit MarketAnalysisOutput) :
    MarketAnalysisCardState × List Effect :=
  match flowOutcome with
  | Except.ok r => (⟨false, some r⟩, [Effect.remoteCall])
  | Except.error _ =>
      (⟨false, none⟩,
       [Effect.remoteCall,
        Effect.toastError "Analysis Failed"
          "Could not fetch market analysis. The model may be temporarily unavailable. Please try again later."])

/-- Modelled from component usage: one structured-advice entry of the crop
agent's response (the flow file src/ai/flows/current-crop-agent-flow.ts is
not among the available sources). -/
structure AdviceEntry where
  icon : Option String
  title : String
  content : String
deriving DecidableEq, Repr

/-- Modelled from component usage: the crop-agent response, a summary plus
structured advice entries. -/
structure CurrentCropAgentOutput where
  summary : String
  structuredAdvice : List AdviceEntry
deriving DecidableEq, Repr

/-- The local state of `CurrentCropAgent`
(src/components/dashboard/current-crop-agent.tsx) relevant to the verified
properties: the crop list, the loading flag, the three result slots, and the
query form fields. -/
structure CropAgentState where
  crops : List CurrentCropContext
  loadingResponse : Bool
  agentResponse : Option CurrentCropAgentOutput
  marketAnalysisResult : Option MarketAnalysisOutput
  postHarvestResult : Option PostHarvestOutput
  selectedCropId : String
  queryField : Option String
  queryFieldError : Option String
deriving DecidableEq, Repr

/-- `getSelectedCrop` (lines 172–180): the crop the query form points at. -/
def getSelectedCrop (s : CropAgentState) : Option CurrentCropContext :=
  s.crops.find? (fun c => c.id == s.selectedCropId)

/-- `clearResults` (lines 182–186): empty all three result slots. -/
def clearResults (s : CropAgentState) : CropAgentState :=
  { s with agentResponse := none, marketAnalysisResult := none,
           postHarvestResult := none }

/-- The inline field message set on a too-short query (line 194). -/
def shortQueryMessage : String := "Please enter a question with at least 5 characters."

/-- `onQuerySubmit` (lines 188–214) as one atomic step; the awaited
`askCurrentCropAgent` outcome is an explicit argument. -/
def onQuerySubmit (s : CropAgentState)
    (flowOutcome : Except Unit CurrentCropAgentOutput) :
    CropAgentState × List Effect :=
  match getSelectedCrop s with
  | none => (s, [Effect.toastError "Error" "Please select a crop first."])
  | some _ =>
      match s.queryField with
      | none => ({ s with queryFieldError := some shortQueryMessage }, [])
      | some q =>
          if (jsTrim q).length < 5 then
            ({ s with queryFieldError := some shortQueryMessage }, [])
          else
            match flowOutcome with
            | Except.ok r =>
                ({ clearResults s with
                    loadingResponse := false
                    agentResponse := some r }, [Effect.remoteCall])
            | Except.error _ =>
                ({ clearResults s with loadingResponse := false },
                 [Effect.remoteCall,
                  Effect.toastError "Agent Error"
                    "The agent could not process your request."])

/-- `handleMarketAnalysis` (lines 216–237) as one atomic step. -/
def handleMarketAnalysis (s : CropAgentState)
    (flowOutcome : Except Unit MarketAnalysisOutput) :
    CropAgentState × List Effect :=
  match getSelectedCrop s with
  | none => (s, [Effect.toastError "Error" "Please select a crop first."])
  | some _ =>
      match flowOutcome with
      | Except.ok r =>
          ({ clearResults s with
              loadingResponse := false
              marketAnalysisResult := some r }, [Effect.remoteCall])
      | Except.error _ =>
          ({ clearResults s with loadingResponse := false },
           [Effect.remoteCall,
            Effect.toastError "Analysis Failed" "Could not fetch market analysis."])

/-- `handlePostHarvestHelp` (lines 239–259) as one atomic step. -/
def handlePostHarvestHelp (s : CropAgentState) (yieldValue : String)
    (flowOutcome : Except Unit PostHarvestOutput) :
    CropAgentState × List Effect :=
  match getSelectedCrop s, yieldValue with
  | none, _ => (s, [Effect.toastError "Error" "Please select a crop first."])
  | some _, _ =>
      match flowOutcome with
      | Except.ok r =>
          ({ clearResults s with
              loadingResponse := false
              postHarvestResult := some r }, [Effect.remoteCall])
      | Except.error _ =>
          ({ clearResults s with loadingResponse := false },
           [Effect.remoteCall,
            Effect.toastError "Analysis Failed" "Could not fetch post-harvest advice."])

/-- One result-producing action, carrying the outcome of its flow call. -/
inductive CropAgentAction where
  | askAgent (flowOutcome : Except Unit CurrentCropAgentOutput)
  | marketAnalysisClick (flowOutcome : Except Unit MarketAnalysisOutput)
  | postHarvestHelp (yieldValue : String) (flowOutcome : Except Unit PostHarvestOutput)

/-- Run the handler an action designates. -/
def runAction (s : CropAgentState) : CropAgentAction → CropAgentState × List Effect
  | CropAgentAction.askAgent fo => onQuerySubmit s fo
  | CropAgentAction.marketAnalysisClick fo => handleMarketAnalysis s fo
  | CropAgentAction.postHarvestHelp y fo => handlePostHarvestHelp s y fo

/-- All three action buttons are disabled while a response is loading or when
no crops exist (lines 383–391). -/
def actionButtonsEnabled (s : CropAgentState) : Bool :=
  !s.loadingResponse && !s.crops.isEmpty

/-- A click on an action control runs its handler only when enabled. -/
def dispatchAction (s : CropAgentState) (a : CropAgentAction) :
    CropAgentState × List Effect :=
  if actionButtonsEnabled s then runAction s a else (s, [])

/-- C5: a flow-client failure during a submission is caught at the component
boundary: the market card's `onSubmit` and the crop agent's
`handlePostHarvestHelp` both end with the loading flag cleared, no stored
result, a single generic error toast, and exactly one remote call (no retry);
both handlers are total functions into a plain state, so no error propagates
out of them. -/
theorem C5_failure_caught (e : Unit) (s : CropAgentState) (y : String)
    (hcrop : (getSelectedCrop s).isSome = true) :
    (onSubmit (Except.error e)).1.loading = false ∧
    (onSubmit (Except.error e)).1.analysis = none ∧
    (onSubmit (Except.error e)).2 =
      [Effect.remoteCall,
       Effect.toastError "Analysis Failed"
         "Could not fetch market analysis. The model may be temporarily unavailable. Please try again later."] ∧
    (handlePostHarvestHelp s y (Except.error e)).1.loadingResponse = false ∧
    (handlePostHarvestHelp s y (Except.error e)).1.agentResponse = none ∧
    (handlePostHarvestHelp s y (Except.error e)).1.marketAnalysisResult = none ∧
    (handlePostHarvestHelp s y (Except.error e)).1.postHarvestResult = none ∧
    (handlePostHarvestHelp s y (Except.error e)).2 =
      [Effect.remoteCall,
       Effect.toastError "Analysis Failed" "Could not fetch post-harvest advice."] := by
  obtain ⟨c, hc⟩ := Option.isSome_iff_exists.mp hcrop
  unfold handlePostHarvestHelp
  rw [hc]
  simp [onSubmit, clearResults]

/-- A crop used in concrete witnesses. -/
def witnessCrop : CurrentCropContext :=
  ⟨"crop-1", "Tomato", "2 acres", "Pune", "2024-01-10T00:00:00.000Z", none⟩

/-- A crop-agent state pointing at `witnessCrop`, ready to submit. -/
def witnessAgentState : CropAgentState :=
  ⟨[witnessCrop], false, none, none, none, "crop-1", some "When should I harvest?", none⟩

/-- Witness for C5 at a concrete crop-agent state. -/
theorem C5_failure_caught_witness :
    (onSubmit (Except.error ())).1.loading = false ∧
    (onSubmit (Except.error ())).1.analysis = none ∧
    (onSubmit (Except.error ())).2 =
      [Effect.remoteCall,
       Effect.toastError "Analysis Failed"
         "Could not fetch market analysis. The model may be temporarily unavailable. Please try again later."] ∧
    (handlePostHarvestHelp witnessAgentState "10 tonnes" (Except.error ())).1.loadingResponse = false ∧
    (handlePostHarvestHelp witnessAgentState "10 tonnes" (Except.error ())).1.agentResponse = none ∧
    (handlePostHarvestHelp witnessAgentState "10 tonnes" (Except.error ())).1.marketAnalysisResult = none ∧
    (handlePostHarvestHelp witnessAgentState "10 tonnes" (Except.error ())).1.postHarvestResult = none ∧
    (handlePostHarvestHelp witnessAgentState "10 tonnes" (Except.error ())).2 =
      [Effect.remoteCall,
       Effect.toastError "Analysis Failed" "Could not fetch post-harvest advice."] :=
  C5_failure_caught () witnessAgentState "10 tonnes" rfl

/-- C6: while a request is in flight, a second submit attempt changes nothing
and triggers no remote call: the conversational submit handler returns early,
and the crop agent's action buttons are disabled so a click dispatches
nothing. -/
theorem C6_no_resubmission_while_loading (s : ChatState) (language : String)
    (r : Except Unit String) (cs : CropAgentState) (a : CropAgentAction)
    (hs : s.loading = true) (hcs : cs.loadingResponse = true) :
    handleSubmit s language r = (s, none) ∧ dispatchAction cs a = (cs, []) := by
  constructor
  · unfold handleSubmit
    rw [if_pos (Or.inr hs)]
  · unfold dispatchAction actionButtonsEnabled
    rw [hcs]
    simp

/-- Witness for C6 at concrete in-flight states. -/
theorem C6_no_resubmission_while_loading_witness :
    handleSubmit ⟨[], "next question", true⟩ "English" (Except.ok "reply") =
      (⟨[], "next question", true⟩, none) ∧
    dispatchAction { witnessAgentState with loadingResponse := true }
        (CropAgentAction.marketAnalysisClick (Except.ok
          ⟨TrendDirection.Upward, "sum", "rec", "why", "src"⟩)) =
      ({ witnessAgentState with loadingResponse := true }, []) :=
  C6_no_resubmission_while_loading ⟨[], "next question", true⟩ "English"
    (Except.ok "reply") { witnessAgentState with loadingResponse := true }
    (CropAgentAction.marketAnalysisClick (Except.ok
      ⟨TrendDirection.Upward, "sum", "rec", "why", "src"⟩)) rfl rfl

/-- How many of the three result slots hold a value. -/
def resultCount (s : CropAgentState) : Nat :=
  (if s.agentResponse.isSome then 1 else 0) +
  (if s.marketAnalysisResult.isSome then 1 else 0) +
  (if s.postHarvestResult.isSome then 1 else 0)

/-- Whether an action's awaited flow call failed. -/
def CropAgentAction.failed : CropAgentAction → Prop
  | CropAgentAction.askAgent (Except.error _) => True
  | CropAgentAction.marketAnalysisClick (Except.error _) => True
  | CropAgentAction.postHarvestHelp _ (Except.error _) => True
  | _ => False

/-- C9: every result-producing action clears all three result slots before
its remote call: at most one slot is filled after any action (given at most
one was filled before), and an action that reached its remote call and failed
leaves all three slots empty — no stale result survives alongside a new
one. -/
theorem C9_result_slots (s : CropAgentState) (a : CropAgentAction)
    (h : resultCount s ≤ 1) :
    resultCount (runAction s a).1 ≤ 1 ∧
    (CropAgentAction.failed a → Effect.remoteCall ∈ (runAction s a).2 →
      (runAction s a).1.agentResponse = none ∧
      (runAction s a).1.marketAnalysisResult = none ∧
      (runAction s a).1.postHarvestResult = none) := by
  cases a with
  | askAgent fo =>
      unfold runAction onQuerySubmit
      cases hsel : getSelectedCrop s with
      | none =>
          refine ⟨h, ?_⟩
          intro _ hmem
          simp at hmem
      | some c =>
          cases hq : s.queryField with
          | none =>
              refine ⟨?_, ?_⟩
              · simpa [resultCount] using h
              · intro _ hmem
                simp at hmem
          | some q =>
              by_cases hlen : (jsTrim q).length < 5
              · simp only [hlen, if_true]
                refine ⟨?_, ?_⟩
                · simpa [resultCount] using h
                · intro _ hmem
                  simp at hmem
              · simp only [hlen, if_false]
                cases fo with
                | ok r =>
                    refine ⟨?_, ?_⟩
                    · simp [resultCount, clearResults]
                    · intro hf
                      simp [CropAgentAction.failed] at hf
                | error e =>
                    exact ⟨by simp [resultCount, clearResults],
                      fun _ _ => ⟨rfl, rfl, rfl⟩⟩
  | marketAnalysisClick fo =>
      unfold runAction handleMarketAnalysis
      cases hsel : getSelectedCrop s with
      | none =>
          refine ⟨h, ?_⟩
          intro _ hmem
          simp at hmem
      | some c =>
          cases fo with
          | ok r =>
              refine ⟨?_, ?_⟩
              · simp [resultCount, clearResults]
              · intro hf
                simp [CropAgentAction.failed] at hf
          | error e =>
              exact ⟨by simp [resultCount, clearResults],
                fun _ _ => ⟨rfl, rfl, rfl⟩⟩
  | postHarvestHelp y fo =>
      unfold runAction handlePostHarvestHelp
      cases hsel : getSelectedCrop s with
      | none =>
          refine ⟨h, ?_⟩
          intro _ hmem
          simp at hmem
      | some c =>
          cases fo with
          | ok r =>
              refine ⟨?_, ?_⟩
              · simp [resultCount, clearResults]
              · intro hf
                simp [CropAgentAction.failed] at hf
          | error e =>
              exact ⟨by simp [resultCount, clearResults],
                fun _ _ => ⟨rfl, rfl, rfl⟩⟩

/-- A previously stored post-harvest result, used to build a witness state. -/
def staleAdvice : PostHarvestOutput :=
  ⟨"cold storage", "truck", "APMC", "puree", "contracts", "grading", "drying", "compost"⟩

/-- A crop-agent state already holding one (stale) result. -/
def staleResultState : CropAgentState :=
  { witnessAgentState with postHarvestResult := some staleAdvice }

/-- The failing market-analysis action used in the C9 witness. -/
def failingMarketClick : CropAgentAction :=
  CropAgentAction.marketAnalysisClick (Except.error ())

/-- Witness for C9: a failing market-analysis action on a state already
holding a post-harvest result leaves every slot empty. -/
theorem C9_result_slots_witness :
    resultCount (runAction staleResultState failingMarketClick).1 ≤ 1 ∧
    (CropAgentAction.failed failingMarketClick →
      Effect.remoteCall ∈ (runAction staleResultState failingMarketClick).2 →
      (runAction staleResultState failingMarketClick).1.agentResponse = none ∧
      (runAction staleResultState failingMarketClick).1.marketAnalysisResult = none ∧
      (runAction staleResultState failingMarketClick).1.postHarvestResult = none) :=
  C9_result_slots staleResultState failingMarketClick (by decide)

/-- C10: a conversational submission whose input trims to the empty string
(empty or all-whitespace) is a no-op — no message appended, no remote call,
state unchanged — and the crop-agent query form rejects a query shorter than
five characters (after trimming) with a local field error and no remote
call. -/
theorem C10_short_input_rejected_locally (s : ChatState) (language : String)
    (r : Except Unit String) (cs : CropAgentState) (q : String)
    (fo : Except Unit CurrentCropAgentOutput)
    (hin : jsTrim s.input = "")
    (hq : cs.queryField = some q) (hlen : (jsTrim q).length < 5)
    (hcrop : (getSelectedCrop cs).isSome = true) :
    handleSubmit s language r = (s, none) ∧
    onQuerySubmit cs fo = ({ cs with queryFieldError := some shortQueryMessage }, []) := by
  constructor
  · unfold handleSubmit
    rw [if_pos (Or.inl hin)]
  · obtain ⟨c, hc⟩ := Option.isSome_iff_exists.mp hcrop
    unfold onQuerySubmit
    rw [hc, hq]
    simp only [hlen, if_true]

/-- Witness for C10 at a whitespace chat input and a three-character query. -/
theorem C10_short_input_rejected_locally_witness :
    handleSubmit ⟨[], "   ", false⟩ "English" (Except.ok "reply") =
      (⟨[], "   ", false⟩, none) ∧
    onQuerySubmit { witnessAgentState with queryField := some "why" } (Except.ok ⟨"sum", []⟩) =
      ({ { witnessAgentState with queryField := some "why" } with
          queryFieldError := some shortQueryMessage }, []) :=
  C10_short_input_rejected_locally ⟨[], "   ", false⟩ "English" (Except.ok "reply")
    { witnessAgentState with queryField := some "why" } "why" (Except.ok ⟨"sum", []⟩)
    (by decide) rfl (by decide) rfl
